import Mathlib

/-!
Shallow embedding of the YouTube transcript service core (src/main.py):
URL identifier parsing, subtitle track merging and selection, json3
transcript decoding, and the cookie retry orchestration.
-/

deriving instance DecidableEq for Except

namespace YTT

/-- Result of Python urlparse applied to the request URL string: the
network location, the path, and the query string given as the ordered
list of decoded name/value pairs it encodes. -/
structure ParsedUrl where
  netloc : String
  path : String
  query : List (String × String)
deriving DecidableEq

/-- Python str.lstrip with the single character slash, as used on line 42
of src/main.py: drop every leading slash of the string. -/
def lstripSlash (s : String) : String :=
  String.mk (s.toList.dropWhile (fun c => c = '/'))

/-- Does a character list start with the given pattern list. -/
def startsWithList : List Char → List Char → Bool
  | _, [] => true
  | [], _ :: _ => false
  | c :: cs, d :: ds => c = d && startsWithList cs ds

/-- Python str.startswith, used for the embed and v path shapes on line 45
of src/main.py. -/
def pyStartsWith (s pat : String) : Bool :=
  startsWithList s.toList pat.toList

/-- Python str.split on a single-character separator, on character lists.
An empty input gives one empty field, as in Python. -/
def splitCharList (c : Char) : List Char → List (List Char)
  | [] => [[]]
  | ch :: rest =>
    match splitCharList c rest with
    | [] => [[]]
    | g :: gs => if ch = c then [] :: g :: gs else (ch :: g) :: gs

/-- Python str.split on a single-character separator (path.split on line 46
of src/main.py uses the slash). -/
def pySplit (s : String) (c : Char) : List String :=
  (splitCharList c s.toList).map String.mk

/-- First-match lookup in an association list, the reading of a Python
dict (whose key lists are duplicate free) as an ordered list of pairs. -/
def dictLookup {V : Type} (d : List (String × V)) (k : String) : Option V :=
  (d.find? (fun p => p.1 = k)).map Prod.snd

/-- Key list with later duplicates removed, first occurrences kept in
order: the key order of the dict Python parse_qs builds. -/
def uniqueKeys : List String → List String
  | [] => []
  | k :: rest => k :: (uniqueKeys rest).filter (fun j => j ≠ k)

/-- Python urllib.parse.parse_qs with its defaults (line 36 of
src/main.py): pairs with a blank value are dropped
(keep_blank_values is false), the rest are grouped by name, keys in
first-occurrence order, each name mapped to its values in query order. -/
def parse_qs (qs : List (String × String)) : List (String × List String) :=
  let q' := qs.filter (fun p => p.2 ≠ "")
  (uniqueKeys (q'.map Prod.fst)).map
    (fun k => (k, (q'.filter (fun p => p.1 = k)).map Prod.snd))

/-- Detail string of the HTTPException raised on line 48 of src/main.py. -/
def invalidURLMsg : String := "Could not extract video ID from URL"

/-- Embedding of extract_video_id (src/main.py lines 29-48) on an already
parsed URL. The branch raising HTTPException(400) is the error case. -/
def extract_video_id (u : ParsedUrl) : Except String String :=
  if u.netloc = "www.youtube.com" ∨ u.netloc = "youtube.com" then
    if u.path = "/watch" then
      match dictLookup (parse_qs u.query) "v" with
      | some (v :: _) => Except.ok v
      | _ => Except.error invalidURLMsg
    else Except.error invalidURLMsg
  else if u.netloc = "youtu.be" then
    Except.ok (lstripSlash u.path)
  else if pyStartsWith u.path "/embed/" || pyStartsWith u.path "/v/" then
    Except.ok ((pySplit u.path '/').getD 2 "")
  else Except.error invalidURLMsg

/-- One entry of a subtitle format list as yt-dlp reports it: the keys
format_info.get reads on lines 97 and 119 of src/main.py. -/
structure FormatInfo where
  ext : Option String
  url : Option String
deriving DecidableEq

/-- A keyed-by-language collection of subtitle format variants, the
reading of the Python dicts info.get returns on lines 79-80 of
src/main.py as ordered association lists with duplicate-free keys. -/
abbrev TrackSet := List (String × List FormatInfo)

/-- Python dict merge as on line 83 of src/main.py,
all_subtitles = the double-splat merge of subtitles and auto_subtitles:
keys of the first dict in order with the second dict's value winning on
collision, then the second dict's remaining keys in order. -/
def mergeDicts {V : Type} (a b : List (String × V)) : List (String × V) :=
  a.map (fun p => (p.1, (dictLookup b p.1).getD p.2)) ++
    b.filter (fun p => (dictLookup a p.1).isNone)

/-- Outcome of the subtitle selection portion of
get_transcript_with_ytdlp (src/main.py lines 85-116): noSubtitles is the
exception raised on line 86, noSuitableFormat the one on line 116. -/
inductive SelectResult where
  | noSubtitles : SelectResult
  | noSuitableFormat : SelectResult
  | selected : FormatInfo → String → SelectResult
deriving DecidableEq

/-- The inner loop of lines 96-100 and 107-111 of src/main.py: first
variant whose ext is json3, none when the loop falls through. -/
def findJson3 (formats : List FormatInfo) : Option FormatInfo :=
  formats.find? (fun f => f.ext = some "json3")

/-- The preferred-language pass of src/main.py lines 92-102: first
preferred language present in the set whose variants contain a json3
entry, with that entry. -/
def phase1 (all : TrackSet) (preferred_langs : List String) :
    Option (FormatInfo × String) :=
  preferred_langs.findSome? (fun lang =>
    match dictLookup all lang with
    | some subtitle_formats => (findJson3 subtitle_formats).map (fun f => (f, lang))
    | none => none)

/-- The any-language fallback pass of src/main.py lines 105-113: first
json3 entry in set order. -/
def phase2 (all : TrackSet) : Option (FormatInfo × String) :=
  all.findSome? (fun p => (findJson3 p.2).map (fun f => (f, p.1)))

/-- Embedding of the subtitle selection of get_transcript_with_ytdlp
(src/main.py lines 85-116): empty-set check, the preferred-language
pass, then the any-language fallback. -/
def selectSubtitle (all_subtitles : TrackSet) (preferred_langs : List String) :
    SelectResult :=
  if all_subtitles.isEmpty then SelectResult.noSubtitles
  else
    match phase1 all_subtitles preferred_langs with
    | some (f, lang) => SelectResult.selected f lang
    | none =>
      match phase2 all_subtitles with
      | some (f, lang) => SelectResult.selected f lang
      | none => SelectResult.noSuitableFormat

/-- Spec-side helper, following the spec words of section 4.2: scan the
format variants in source order and pick the first variant whose format
tag equals json3. -/
def firstJson3 : List FormatInfo → Option FormatInfo
  | [] => none
  | f :: rest => if f.ext = some "json3" then some f else firstJson3 rest

/-- Spec-side helper, following the spec words of section 4.2 step 1:
iterate preferred languages in caller-supplied order and stop at the
first language whose variants yield a json3 match. -/
def preferredPick (all : TrackSet) : List String → Option (FormatInfo × String)
  | [] => none
  | lang :: rest =>
    match dictLookup all lang with
    | some fmts =>
      match firstJson3 fmts with
      | some f => some (f, lang)
      | none => preferredPick all rest
    | none => preferredPick all rest

/-- Spec-side helper, following the spec words of section 4.2 step 2:
iterate the full set in insertion order and pick the first variant
matching the target format, for any language. -/
def anyPick : TrackSet → Option (FormatInfo × String)
  | [] => none
  | (lang, fmts) :: rest =>
    match firstJson3 fmts with
    | some f => some (f, lang)
    | none => anyPick rest

/-- Spec-side selection, written from the words of section 4.2 of the
spec, to be compared with the source-translated selectSubtitle. -/
def selectSpec (all : TrackSet) (preferred_langs : List String) : SelectResult :=
  if all = [] then SelectResult.noSubtitles
  else
    match preferredPick all preferred_langs with
    | some (f, lang) => SelectResult.selected f lang
    | none =>
      match anyPick all with
      | some (f, lang) => SelectResult.selected f lang
      | none => SelectResult.noSuitableFormat

/-- One entry of an event's segment list in the json3 document: the utf8
key read on lines 137-139 of src/main.py, absent when the segment
carries no text fragment. -/
structure Seg where
  utf8 : Option String
deriving DecidableEq

/-- One event of the json3 subtitle document as read on lines 131-139 of
src/main.py: optional start offset and duration in milliseconds, and the
optional segment list. -/
structure Event where
  tStartMs : Option Int
  dDurationMs : Option Int
  segs : Option (List Seg)
deriving DecidableEq

/-- One decoded transcript entry, the dict appended on lines 144-148 of
src/main.py. Seconds are modelled as exact rationals. -/
structure TranscriptSegment where
  text : String
  start : ℚ
  duration : ℚ
deriving DecidableEq

/-- Python str.strip with no argument as used on line 142 of src/main.py:
drop leading and trailing whitespace. -/
def pyStrip (s : String) : String :=
  String.mk
    (((s.toList.dropWhile Char.isWhitespace).reverse.dropWhile Char.isWhitespace).reverse)

/-- Concatenation of a list of strings with no separator, Python
str.join with the empty separator on line 142 of src/main.py. -/
def joinParts (parts : List String) : String :=
  parts.foldl (fun a b => a ++ b) ""

/-- Embedding of the per-event decoding of src/main.py lines 131-148:
none when the event contributes no transcript entry (no segs key, no
utf8 fragments, or only-whitespace text), and the built entry otherwise. -/
def decodeEvent (event : Event) : Option TranscriptSegment :=
  match event.segs with
  | none => none
  | some segs =>
    let start_time : ℚ := ((event.tStartMs.getD 0 : Int) : ℚ) / 1000
    let duration : ℚ :=
      match event.dDurationMs with
      | some d => ((d : Int) : ℚ) / 1000
      | none => 2
    let text_parts : List String := segs.filterMap (fun seg => seg.utf8)
    if text_parts.isEmpty then none
    else
      let text := pyStrip (joinParts text_parts)
      if text = "" then none
      else some ⟨text, start_time, duration⟩

/-- Embedding of the event loop of src/main.py lines 130-148: transcript
entries of the events, in source event order. -/
def extractTranscript (events : List Event) : List TranscriptSegment :=
  events.filterMap decodeEvent

/-- The parsed json3 subtitle document: an object whose events key, when
present, holds the event list (src/main.py line 128). -/
structure SubtitleDoc where
  events : Option (List Event)
deriving DecidableEq

/-- Embedding of src/main.py lines 125-148 from json.loads onward: none
models content that is not valid JSON (json.loads raises, caught and
wrapped on lines 152-153); a parsed document is decoded through
subtitle_json.get with the empty default and never fails. -/
def decodeSubtitleContent (parsed : Option SubtitleDoc) :
    Except String (List TranscriptSegment) :=
  match parsed with
  | none => Except.error "Error extracting transcript: invalid JSON"
  | some doc => Except.ok (extractTranscript (doc.events.getD []))

/-- Does hay contain needle as a contiguous substring, on character
lists: the Python in operator for strings. -/
def hasSubList (needle : List Char) : List Char → Bool
  | [] => startsWithList [] needle
  | c :: t => startsWithList (c :: t) needle || hasSubList needle t

/-- Python substring membership, the in operator used on line 169 of
src/main.py. -/
def strContains (hay needle : String) : Bool :=
  hasSubList needle.toList hay.toList

/-- Python str.lower as used on line 169 of src/main.py, mapping each
character to its lowercase form. -/
def pyLower (s : String) : String :=
  String.mk (s.toList.map Char.toLower)

/-- The challenge-marker test of src/main.py line 169: the message
contains the sign-in phrase, or its lowercase form contains bot. -/
def isAuthChallenge (error_message : String) : Bool :=
  strContains error_message "Sign in to confirm" ||
    strContains (pyLower error_message) "bot"

/-- Embedding of the retry orchestration of get_youtube_transcript
(src/main.py lines 163-178). The extraction call is abstracted as a
function of the use_cookies flag; cookieExists models
os.path.exists(cookie_path). Returns the surfaced outcome (the
HTTPException detail string on failure) together with the number of
extraction attempts made. -/
def retryOrchestrator {T : Type} (cookieExists : Bool)
    (attempt : Bool → Except String T) : Except String T × Nat :=
  match attempt false with
  | Except.ok r => (Except.ok r, 1)
  | Except.error error_message =>
    if isAuthChallenge error_message && cookieExists then
      match attempt true with
      | Except.ok r => (Except.ok r, 2)
      | Except.error cookie_error =>
        (Except.error
          ("Could not retrieve transcript even with cookies: " ++ cookie_error), 2)
    else
      (Except.error ("Could not retrieve transcript: " ++ error_message), 1)

/-! Helper lemmas about the list primitives the embeddings use. -/

theorem find?_map_keymap {α β : Type} (f : α → β) (p : β → Bool) (q : α → Bool)
    (h : ∀ a, p (f a) = q a) :
    ∀ l : List α, (l.map f).find? p = (l.find? q).map f := by
  intro l
  induction l with
  | nil => rfl
  | cons a t ih =>
    simp only [List.map_cons, List.find?_cons]
    rw [h a]
    cases q a <;> simp [ih]

theorem find?_filter_of_imp {α : Type} (q pr : α → Bool)
    (h : ∀ a, q a = true → pr a = true) :
    ∀ l : List α, (l.filter pr).find? q = l.find? q := by
  intro l
  induction l with
  | nil => rfl
  | cons a t ih =>
    by_cases hpr : pr a = true
    · rw [List.filter_cons_of_pos hpr]
      simp only [List.find?_cons]
      cases q a <;> simp [ih]
    · have hq : q a = false := by
        cases hqa : q a
        · rfl
        · exact absurd (h a hqa) hpr
      rw [List.filter_cons_of_neg hpr]
      simp only [List.find?_cons, hq, ih]

theorem dictLookup_nil {V : Type} (k : String) : dictLookup ([] : List (String × V)) k = none := rfl

theorem dictLookup_append {V : Type} (a b : List (String × V)) (k : String) :
    dictLookup (a ++ b) k = (dictLookup a k).or (dictLookup b k) := by
  unfold dictLookup
  rw [List.find?_append]
  cases a.find? (fun p => decide (p.1 = k)) <;> rfl

theorem dictLookup_map_keyed {V W : Type} (g : String × V → W) (a : List (String × V))
    (k : String) :
    dictLookup (a.map (fun p => (p.1, g p))) k = (a.find? (fun p => p.1 = k)).map g := by
  unfold dictLookup
  rw [find?_map_keymap (fun p => (p.1, g p)) (fun p => p.1 = k) (fun p => p.1 = k)
    (fun p => rfl) a]
  cases a.find? (fun p => decide (p.1 = k)) <;> rfl

theorem dictLookup_filter_of_imp {V : Type} (pr : String × V → Bool)
    (b : List (String × V)) (k : String) (h : ∀ p : String × V, p.1 = k → pr p = true) :
    dictLookup (b.filter pr) k = dictLookup b k := by
  unfold dictLookup
  rw [find?_filter_of_imp (fun p => p.1 = k) pr (fun p hp => h p (by simpa using hp)) b]

theorem dictLookup_mergeDicts {V : Type} (a b : List (String × V)) (k : String) :
    dictLookup (mergeDicts a b) k = (dictLookup b k).or (dictLookup a k) := by
  unfold mergeDicts
  rw [dictLookup_append, dictLookup_map_keyed (fun p => (dictLookup b p.1).getD p.2) a k]
  cases ha : a.find? (fun p => decide (p.1 = k)) with
  | some pa =>
    have hk : pa.1 = k := by simpa using List.find?_some ha
    have hda : dictLookup a k = some pa.2 := by
      unfold dictLookup
      rw [ha]
      rfl
    simp only [Option.map_some']
    cases hb : dictLookup b k <;> simp [hb, hda, hk]
  | none =>
    have hda : dictLookup a k = none := by
      unfold dictLookup
      rw [ha]
      rfl
    rw [dictLookup_filter_of_imp (fun p => (dictLookup a p.1).isNone) b k
      (fun p hp => by
        show (dictLookup a p.1).isNone = true
        rw [hp, hda]
        rfl)]
    cases hb : dictLookup b k <;> simp [hb, hda]

theorem mem_uniqueKeys (k : String) : ∀ l : List String, k ∈ uniqueKeys l ↔ k ∈ l := by
  intro l
  induction l with
  | nil => simp [uniqueKeys]
  | cons j t ih =>
    simp only [uniqueKeys, List.mem_cons, List.mem_filter, ih]
    by_cases hkj : k = j <;> simp [hkj]

theorem find?_key_self (k : String) :
    ∀ l : List String, l.find? (fun j => j = k) = if k ∈ l then some k else none := by
  intro l
  induction l with
  | nil => simp
  | cons j t ih =>
    simp only [List.find?_cons]
    by_cases hjk : j = k
    · subst hjk
      simp
    · have : (decide (j = k)) = false := by simp [hjk]
      rw [this]
      simp only [ih, List.mem_cons]
      have : ¬ k = j := fun h => hjk h.symm
      simp [this]

theorem dictLookup_parse_qs (qs : List (String × String)) (k : String) :
    dictLookup (parse_qs qs) k =
      (if (qs.filter (fun p => p.2 ≠ "")).filter (fun p => p.1 = k) = [] then none
       else some (((qs.filter (fun p => p.2 ≠ "")).filter (fun p => p.1 = k)).map Prod.snd)) := by
  unfold parse_qs dictLookup
  rw [find?_map_keymap
    (fun j => (j, ((qs.filter (fun p => p.2 ≠ "")).filter (fun p => p.1 = j)).map Prod.snd))
    (fun p => p.1 = k) (fun j => j = k) (fun j => rfl) _]
  rw [find?_key_self]
  by_cases hmem : k ∈ (qs.filter (fun p => p.2 ≠ "")).map Prod.fst
  · have hmem' : k ∈ uniqueKeys ((qs.filter (fun p => p.2 ≠ "")).map Prod.fst) :=
      (mem_uniqueKeys k _).mpr hmem
    have hne : ¬ (qs.filter (fun p => p.2 ≠ "")).filter (fun p => p.1 = k) = [] := by
      rw [List.filter_eq_nil_iff]
      intro hall
      obtain ⟨p, hp, hpk⟩ := List.mem_map.mp hmem
      exact hall p hp (by simpa using hpk)
    rw [if_pos hmem', if_neg hne]
    rfl
  · have hmem' : ¬ k ∈ uniqueKeys ((qs.filter (fun p => p.2 ≠ "")).map Prod.fst) :=
      fun hc => hmem ((mem_uniqueKeys k _).mp hc)
    have heq : (qs.filter (fun p => p.2 ≠ "")).filter (fun p => p.1 = k) = [] := by
      rw [List.filter_eq_nil_iff]
      intro p hp hpk
      exact hmem (List.mem_map.mpr ⟨p, hp, by simpa using hpk⟩)
    rw [if_neg hmem', if_pos heq]
    rfl

theorem findJson3_eq_firstJson3 : ∀ fmts : List FormatInfo, findJson3 fmts = firstJson3 fmts := by
  intro fmts
  induction fmts with
  | nil => rfl
  | cons f t ih =>
    simp only [findJson3, List.find?_cons, firstJson3] at ih ⊢
    by_cases hf : f.ext = some "json3"
    · simp [hf]
    · simp [hf, ih]

theorem phase1_eq_preferredPick (all : TrackSet) :
    ∀ preferred_langs : List String,
      phase1 all preferred_langs = preferredPick all preferred_langs := by
  intro preferred_langs
  induction preferred_langs with
  | nil => rfl
  | cons lang rest ih =>
    simp only [phase1, List.findSome?_cons, preferredPick] at ih ⊢
    cases hd : dictLookup all lang with
    | some fmts =>
      cases hj : firstJson3 fmts with
      | some f =>
        have hj' : findJson3 fmts = some f := by rw [findJson3_eq_firstJson3, hj]
        simp [hj', hj]
      | none =>
        have hj' : findJson3 fmts = none := by rw [findJson3_eq_firstJson3, hj]
        simp [hj', hj, ih]
    | none => simp [ih]

theorem phase2_eq_anyPick : ∀ all : TrackSet, phase2 all = anyPick all := by
  intro all
  induction all with
  | nil => rfl
  | cons p rest ih =>
    obtain ⟨lang, fmts⟩ := p
    simp only [phase2, List.findSome?_cons, anyPick] at ih ⊢
    cases hj : firstJson3 fmts with
    | some f =>
      have hj' : findJson3 fmts = some f := by rw [findJson3_eq_firstJson3, hj]
      simp [hj', hj]
    | none =>
      have hj' : findJson3 fmts = none := by rw [findJson3_eq_firstJson3, hj]
      simp [hj', hj, ih]

theorem findJson3_eq_none_iff (fmts : List FormatInfo) :
    findJson3 fmts = none ↔ ∀ f ∈ fmts, f.ext ≠ some "json3" := by
  unfold findJson3
  rw [List.find?_eq_none]
  constructor
  · intro h f hf
    have := h f hf
    simpa using this
  · intro h f hf
    simpa using h f hf

theorem phase2_eq_none_iff (all : TrackSet) :
    phase2 all = none ↔ ∀ p ∈ all, ∀ f ∈ p.2, f.ext ≠ some "json3" := by
  unfold phase2
  rw [List.findSome?_eq_none_iff]
  constructor
  · intro h p hp f hf
    have := h p hp
    rw [Option.map_eq_none'] at this
    exact (findJson3_eq_none_iff p.2).mp this f hf
  · intro h p hp
    rw [Option.map_eq_none']
    exact (findJson3_eq_none_iff p.2).mpr (h p hp)

theorem dictLookup_mem (all : TrackSet) (lang : String) (fmts : List FormatInfo)
    (h : dictLookup all lang = some fmts) : ∃ p ∈ all, p.2 = fmts := by
  unfold dictLookup at h
  cases hf : all.find? (fun p => p.1 = lang) with
  | none => rw [hf] at h; exact absurd h (by simp)
  | some p =>
    rw [hf] at h
    refine ⟨p, List.mem_of_find?_eq_some hf, ?_⟩
    simpa using h

theorem phase1_eq_none_of_no_json3 (all : TrackSet) (preferred_langs : List String)
    (h : ∀ p ∈ all, ∀ f ∈ p.2, f.ext ≠ some "json3") :
    phase1 all preferred_langs = none := by
  unfold phase1
  rw [List.findSome?_eq_none_iff]
  intro lang _
  cases hd : dictLookup all lang with
  | none => rfl
  | some fmts =>
    obtain ⟨p, hp, hpf⟩ := dictLookup_mem all lang fmts hd
    have : findJson3 fmts = none := by
      rw [findJson3_eq_none_iff]
      intro f hf
      exact h p hp f (hpf ▸ hf)
    simp [this]

theorem extract_watch (host : String) (qs : List (String × String))
    (hh : host = "www.youtube.com" ∨ host = "youtube.com") :
    extract_video_id ⟨host, "/watch", qs⟩ =
      (match ((qs.filter (fun p => p.2 ≠ "")).filter (fun p => p.1 = "v")).head? with
       | some p => Except.ok p.2
       | none => Except.error invalidURLMsg) := by
  have hcond : (⟨host, "/watch", qs⟩ : ParsedUrl).netloc = "www.youtube.com" ∨
      (⟨host, "/watch", qs⟩ : ParsedUrl).netloc = "youtube.com" := hh
  unfold extract_video_id
  rw [if_pos hcond, if_pos rfl]
  rw [dictLookup_parse_qs]
  cases hfil : (qs.filter (fun p => p.2 ≠ "")).filter (fun p => p.1 = "v") with
  | nil => simp
  | cons p t => simp

theorem select_eq_selectSpec (all : TrackSet) (preferred_langs : List String) :
    selectSubtitle all preferred_langs = selectSpec all preferred_langs := by
  cases all with
  | nil => rfl
  | cons p rest =>
    unfold selectSubtitle selectSpec
    rw [phase1_eq_preferredPick, phase2_eq_anyPick]
    simp

theorem isEmpty_false_of_ne_nil {α : Type} (l : List α) (h : ¬ l = []) :
    l.isEmpty = false := by
  cases l with
  | nil => exact absurd rfl h
  | cons a t => rfl

theorem decodeEvent_no_segs (e : Event) (h : e.segs = none) : decodeEvent e = none := by
  simp [decodeEvent, h]

theorem decodeEvent_blank_text (e : Event) (segs : List Seg) (h : e.segs = some segs)
    (ht : pyStrip (joinParts (segs.filterMap (fun s => s.utf8))) = "") :
    decodeEvent e = none := by
  by_cases hemp : (segs.filterMap (fun s => s.utf8)) = []
  · have : (segs.filterMap (fun s => s.utf8)).isEmpty = true := by rw [hemp]; rfl
    simp [decodeEvent, h, this]
  · have hemp' : (segs.filterMap (fun s => s.utf8)).isEmpty = false :=
      isEmpty_false_of_ne_nil _ hemp
    simp [decodeEvent, h, hemp', ht]

theorem decodeEvent_eq_some (e : Event) (segs : List Seg) (h : e.segs = some segs)
    (ht : ¬ pyStrip (joinParts (segs.filterMap (fun s => s.utf8))) = "") :
    decodeEvent e =
      some ⟨pyStrip (joinParts (segs.filterMap (fun s => s.utf8))),
        ((e.tStartMs.getD 0 : Int) : ℚ) / 1000,
        (e.dDurationMs.map (fun d => ((d : Int) : ℚ) / 1000)).getD 2⟩ := by
  have hemp : (segs.filterMap (fun s => s.utf8)).isEmpty = false := by
    refine isEmpty_false_of_ne_nil _ ?_
    intro hc
    rw [hc] at ht
    exact ht rfl
  cases hd : e.dDurationMs with
  | some d => simp [decodeEvent, h, hemp, ht, hd]
  | none => simp [decodeEvent, h, hemp, ht, hd]

theorem transcript_example :
    extractTranscript
      [⟨some 1000, some 2500, some [⟨some "Hello "⟩, ⟨some "world"⟩]⟩] =
    [⟨"Hello world", 1, 5 / 2⟩] := by
  simp +decide [extractTranscript, decodeEvent, joinParts, pyStrip]
  norm_num

/-! Settling of the claims. -/

/-- C1 counterexample: when the language en appears in both the manual
set and the automatically generated set, the merged set used by
src/main.py line 83 holds the automatically generated entry, not the
manual one, so the claim as stated is false. -/
theorem claim_C1_counterexample :
    dictLookup (mergeDicts [("en", [(⟨some "json3", some "urlA"⟩ : FormatInfo)])]
        [("en", [⟨some "json3", some "urlB"⟩])]) "en" =
      some [⟨some "json3", some "urlB"⟩] ∧
    some [(⟨some "json3", some "urlB"⟩ : FormatInfo)] ≠
      some [⟨some "json3", some "urlA"⟩] :=
  ⟨rfl, by decide⟩

/-- C1 amended: in the merged set, on a key collision the automatically
generated entry takes precedence (not the manual one), and a language
present in either set alone keeps its entry, so no language of either
set is dropped. -/
theorem claim_C1 (subs autos : List (String × List FormatInfo)) (lang : String) :
    dictLookup (mergeDicts subs autos) lang =
      (dictLookup autos lang).or (dictLookup subs lang) :=
  dictLookup_mergeDicts subs autos lang

/-- C2 counterexample: a URL with host www.youtube.com whose path starts
with /embed/ falls into the first host branch of src/main.py lines 34-38,
never reaches the path test of line 45, and fails, so the parser does not
return the path's third slash-delimited segment for that host. -/
theorem claim_C2_counterexample :
    extract_video_id ⟨"www.youtube.com", "/embed/abc123", []⟩ =
      Except.error invalidURLMsg ∧
    extract_video_id ⟨"www.youtube.com", "/embed/abc123", []⟩ ≠
      Except.ok "abc123" :=
  ⟨rfl, by decide⟩

/-- C2 amended: watch URLs on the youtube.com hosts return the value of
the query parameter v; youtu.be URLs return the path with leading
slashes stripped; paths starting with /embed/ or /v/ return the path's
third slash-delimited segment only when the host is none of
www.youtube.com, youtube.com and youtu.be; on the youtube.com hosts any
path other than /watch, embed and v paths included, fails with
InvalidURL. -/
theorem claim_C2 :
    (∀ host id, (host = "www.youtube.com" ∨ host = "youtube.com") → id ≠ "" →
      extract_video_id ⟨host, "/watch", [("v", id)]⟩ = Except.ok id) ∧
    (∀ p q, extract_video_id ⟨"youtu.be", p, q⟩ = Except.ok (lstripSlash p)) ∧
    (∀ host p q, host ≠ "www.youtube.com" → host ≠ "youtube.com" → host ≠ "youtu.be" →
      (pyStartsWith p "/embed/" || pyStartsWith p "/v/") = true →
      extract_video_id ⟨host, p, q⟩ = Except.ok ((pySplit p '/').getD 2 "")) ∧
    (∀ host p q, (host = "www.youtube.com" ∨ host = "youtube.com") → p ≠ "/watch" →
      extract_video_id ⟨host, p, q⟩ = Except.error invalidURLMsg) := by
  refine ⟨?_, ?_, ?_, ?_⟩
  · intro host id hh hid
    rw [extract_watch host [("v", id)] hh]
    simp [hid]
  · intro p q
    rfl
  · intro host p q h1 h2 h3 h4
    have hcond : ¬ (host = "www.youtube.com" ∨ host = "youtube.com") := by
      rintro (hc | hc)
      · exact h1 hc
      · exact h2 hc
    simp only [extract_video_id]
    rw [if_neg hcond, if_neg h3, if_pos h4]
  · intro host p q hh hp
    simp only [extract_video_id]
    rw [if_pos hh, if_neg hp]

/-- C2 witness: the amended rules evaluated at one concrete input per
branch. -/
theorem claim_C2_witness :
    extract_video_id ⟨"youtube.com", "/watch", [("v", "abc123")]⟩ = Except.ok "abc123" ∧
    extract_video_id ⟨"player.example.com", "/v/xyz", []⟩ = Except.ok "xyz" ∧
    extract_video_id ⟨"youtube.com", "/embed/abc123", []⟩ = Except.error invalidURLMsg := by
  refine ⟨claim_C2.1 "youtube.com" "abc123" (Or.inr rfl) (by decide), ?_,
    claim_C2.2.2.2 "youtube.com" "/embed/abc123" [] (Or.inr rfl) (by decide)⟩
  exact claim_C2.2.2.1 "player.example.com" "/v/xyz" [] (by decide) (by decide)
    (by decide) (by decide)

/-- C3 confirmed: the selector picks urlB for the example set with
preference en, falls back to the first json3 entry in set order for an
absent preference, and in general equals the two-phase spec-side
selection in which language precedence outranks variant order. -/
theorem claim_C3 :
    selectSubtitle
        [("es", [⟨some "json3", some "urlA"⟩]),
         ("en", [⟨some "json3", some "urlB"⟩, ⟨some "srv3", some "urlC"⟩])] ["en"] =
      SelectResult.selected ⟨some "json3", some "urlB"⟩ "en" ∧
    selectSubtitle
        [("es", [⟨some "json3", some "urlA"⟩]),
         ("en", [⟨some "json3", some "urlB"⟩, ⟨some "srv3", some "urlC"⟩])] ["fr"] =
      SelectResult.selected ⟨some "json3", some "urlA"⟩ "es" ∧
    ∀ (all : TrackSet) (preferred_langs : List String),
      selectSubtitle all preferred_langs = selectSpec all preferred_langs :=
  ⟨rfl, rfl, select_eq_selectSpec⟩

/-- C4 counterexample: the preferred language en exists in the set with
no json3 variant, yet selection does not fail with NoSuitableFormat: the
fallback pass of src/main.py lines 105-113 still picks the json3 entry
of es. -/
theorem claim_C4_counterexample :
    selectSubtitle
        [("en", [⟨some "srv3", some "urlC"⟩]), ("es", [⟨some "json3", some "urlA"⟩])]
        ["en"] = SelectResult.selected ⟨some "json3", some "urlA"⟩ "es" ∧
    SelectResult.selected ⟨some "json3", some "urlA"⟩ "es" ≠
      SelectResult.noSuitableFormat :=
  ⟨rfl, by decide⟩

/-- C4 amended: selection fails with NoSubtitlesAvailable exactly when
the merged set is empty, and with NoSuitableFormat exactly when the set
is nonempty and no language in the whole set has a json3 variant (a
preferred language without json3 alone does not make it fail). -/
theorem claim_C4 (all : TrackSet) (preferred_langs : List String) :
    (selectSubtitle all preferred_langs = SelectResult.noSubtitles ↔ all = []) ∧
    (selectSubtitle all preferred_langs = SelectResult.noSuitableFormat ↔
      (all ≠ [] ∧ ∀ p ∈ all, ∀ f ∈ p.2, f.ext ≠ some "json3")) := by
  by_cases hall : all = []
  · subst hall
    exact ⟨by simp [selectSubtitle], by simp [selectSubtitle]⟩
  · have hne : all.isEmpty = false := isEmpty_false_of_ne_nil all hall
    unfold selectSubtitle
    simp only [hne, Bool.false_eq_true, if_false]
    cases h1 : phase1 all preferred_langs with
    | some fl =>
      obtain ⟨f, lang⟩ := fl
      refine ⟨⟨fun hc => by simp at hc, fun hc => absurd hc hall⟩,
        ⟨fun hc => by simp at hc, ?_⟩⟩
      rintro ⟨-, hnj⟩
      have hnone := phase1_eq_none_of_no_json3 all preferred_langs hnj
      rw [h1] at hnone
      exact absurd hnone (by simp)
    | none =>
      cases h2 : phase2 all with
      | some fl =>
        obtain ⟨f, lang⟩ := fl
        refine ⟨⟨fun hc => by simp at hc, fun hc => absurd hc hall⟩,
          ⟨fun hc => by simp at hc, ?_⟩⟩
        rintro ⟨-, hnj⟩
        have hnone := (phase2_eq_none_iff all).mpr hnj
        rw [h2] at hnone
        exact absurd hnone (by simp)
      | none =>
        refine ⟨⟨fun hc => by simp at hc, fun hc => absurd hc hall⟩,
          ⟨fun _ => ⟨hall, (phase2_eq_none_iff all).mp h2⟩, fun _ => rfl⟩⟩

/-- C5 confirmed: the orchestrator never makes more than two attempts,
makes a second (authenticated) attempt exactly when the first attempt
failed with a message carrying the challenge marker while the cookie
file exists, and otherwise surfaces the first failure without retrying. -/
theorem claim_C5 {T : Type} (cookieExists : Bool) (attempt : Bool → Except String T) :
    (retryOrchestrator cookieExists attempt).2 ≤ 2 ∧
    ((retryOrchestrator cookieExists attempt).2 = 2 ↔
      ∃ e, attempt false = Except.error e ∧ (isAuthChallenge e && cookieExists) = true) ∧
    (∀ e, attempt false = Except.error e → (isAuthChallenge e && cookieExists) = false →
      retryOrchestrator cookieExists attempt =
        (Except.error ("Could not retrieve transcript: " ++ e), 1)) := by
  unfold retryOrchestrator
  cases ha : attempt false with
  | ok r =>
    refine ⟨by norm_num, ?_, ?_⟩
    · simp
    · intro e he _
      exact absurd he (by simp)
  | error e0 =>
    dsimp only
    by_cases hm : (isAuthChallenge e0 && cookieExists) = true
    · rw [if_pos hm]
      cases hb : attempt true with
      | ok r =>
        refine ⟨by norm_num, ⟨fun _ => ⟨e0, rfl, hm⟩, fun _ => rfl⟩, ?_⟩
        intro e he hf
        obtain rfl : e0 = e := by injection he
        exact absurd hm (by rw [hf]; intro hc; exact Bool.false_ne_true hc)
      | error ce =>
        refine ⟨by norm_num, ⟨fun _ => ⟨e0, rfl, hm⟩, fun _ => rfl⟩, ?_⟩
        intro e he hf
        obtain rfl : e0 = e := by injection he
        exact absurd hm (by rw [hf]; intro hc; exact Bool.false_ne_true hc)
    · rw [if_neg hm]
      refine ⟨by norm_num, ?_, ?_⟩
      · constructor
        · intro hc
          exact absurd hc (by norm_num)
        · rintro ⟨e, he, hmark⟩
          obtain rfl : e0 = e := by injection he
          exact absurd hmark hm
      · intro e he _
        obtain rfl : e0 = e := by injection he
        rfl

/-- C5 witness: a first failure without the challenge marker, under an
existing cookie file, surfaces directly with one attempt. -/
theorem claim_C5_witness :
    retryOrchestrator true (fun _ => (Except.error "boom" : Except String Nat)) =
      (Except.error "Could not retrieve transcript: boom", 1) :=
  (claim_C5 true (fun _ => Except.error "boom")).2.2 "boom" rfl (by decide)

/-- C6 confirmed: events lacking the segment-list key give no entry;
events whose concatenated trimmed text is empty give no entry; any other
event gives the entry with the trimmed concatenation of its utf8
fragments, start tStartMs/1000 (0 when absent) and duration
dDurationMs/1000 (2.0 when absent); the example event decodes to
(Hello world, 1.0, 2.5); the whole decode maps this over the events. -/
theorem claim_C6 :
    extractTranscript
        [⟨some 1000, some 2500, some [⟨some "Hello "⟩, ⟨some "world"⟩]⟩] =
      [⟨"Hello world", 1, 5 / 2⟩] ∧
    (∀ e : Event, e.segs = none → decodeEvent e = none) ∧
    (∀ (e : Event) (segs : List Seg), e.segs = some segs →
      pyStrip (joinParts (segs.filterMap (fun s => s.utf8))) = "" →
      decodeEvent e = none) ∧
    (∀ (e : Event) (segs : List Seg), e.segs = some segs →
      pyStrip (joinParts (segs.filterMap (fun s => s.utf8))) ≠ "" →
      decodeEvent e =
        some ⟨pyStrip (joinParts (segs.filterMap (fun s => s.utf8))),
          ((e.tStartMs.getD 0 : Int) : ℚ) / 1000,
          (e.dDurationMs.map (fun d => ((d : Int) : ℚ) / 1000)).getD 2⟩) ∧
    (∀ events : List Event, extractTranscript events = events.filterMap decodeEvent) :=
  ⟨transcript_example, decodeEvent_no_segs, decodeEvent_blank_text,
    decodeEvent_eq_some, fun _ => rfl⟩

/-- C6 witness: the characterisation evaluated at an event without segs
and at an event with whitespace-padded text and no duration. -/
theorem claim_C6_witness :
    decodeEvent ⟨some 1000, some 2500, none⟩ = none ∧
    decodeEvent ⟨none, none, some [⟨some " hi "⟩]⟩ = some ⟨"hi", 0, 2⟩ := by
  constructor
  · exact claim_C6.2.1 ⟨some 1000, some 2500, none⟩ rfl
  · have h := claim_C6.2.2.2.1 ⟨none, none, some [⟨some " hi "⟩]⟩ [⟨some " hi "⟩]
      rfl (by decide)
    rw [h]
    simp only [Option.some.injEq, TranscriptSegment.mk.injEq]
    refine ⟨by decide, by simp, by simp⟩

/-- C7 confirmed: a parsed subtitle document lacking the events key is
decoded as zero events, yielding the empty segment sequence as a
success, not a failure. -/
theorem claim_C7 :
    decodeSubtitleContent (some ⟨none⟩) = Except.ok ([] : List TranscriptSegment) := rfl

/-- C8 counterexample: a document event carrying dDurationMs 0 produces
a segment whose duration is 0, which is not positive, so the stated
bound duration > 0 fails. -/
theorem claim_C8_counterexample :
    extractTranscript [⟨some 0, some 0, some [⟨some "hi"⟩]⟩] = [⟨"hi", 0, 0⟩] ∧
    ¬ (0 : ℚ) < 0 := by
  constructor
  · simp +decide [extractTranscript, decodeEvent, joinParts, pyStrip]
  · simp

/-- C8 amended: every produced segment has non-empty text
unconditionally; its start is nonnegative and its duration positive
provided the source event offsets are nonnegative and its duration, when
present, positive (the decoder itself never checks the numbers). -/
theorem claim_C8 (events : List Event)
    (h : ∀ e ∈ events, 0 ≤ e.tStartMs.getD 0 ∧ ∀ d : Int, e.dDurationMs = some d → 0 < d) :
    ∀ s ∈ extractTranscript events, s.text ≠ "" ∧ 0 ≤ s.start ∧ 0 < s.duration := by
  intro s hs
  obtain ⟨e, he, hde⟩ := List.mem_filterMap.mp hs
  obtain ⟨hts, hdur⟩ := h e he
  cases hsegs : e.segs with
  | none =>
    rw [decodeEvent_no_segs e hsegs] at hde
    exact absurd hde (by simp)
  | some segs =>
    by_cases ht : pyStrip (joinParts (segs.filterMap (fun sg => sg.utf8))) = ""
    · rw [decodeEvent_blank_text e segs hsegs ht] at hde
      exact absurd hde (by simp)
    · rw [decodeEvent_eq_some e segs hsegs ht] at hde
      obtain rfl : _ = s := by injection hde
      refine ⟨ht, ?_, ?_⟩
      · have : (0 : ℚ) ≤ ((e.tStartMs.getD 0 : Int) : ℚ) := by
          exact_mod_cast hts
        exact div_nonneg this (by norm_num)
      · cases hd : e.dDurationMs with
        | some d =>
          have hdpos : (0 : ℚ) < ((d : Int) : ℚ) := by
            exact_mod_cast hdur d hd
          simp only [hd, Option.map_some', Option.getD_some]
          exact div_pos hdpos (by norm_num)
        | none => simp [hd]

/-- C8 witness: the amended bounds at the concrete Hello world document. -/
theorem claim_C8_witness :
    ("Hello world" : String) ≠ "" ∧ (0 : ℚ) ≤ 1 ∧ (0 : ℚ) < 5 / 2 := by
  have h := claim_C8 [⟨some 1000, some 2500, some [⟨some "Hello "⟩, ⟨some "world"⟩]⟩]
    (by
      intro e he
      simp only [List.mem_singleton] at he
      subst he
      refine ⟨by decide, ?_⟩
      intro d hd
      obtain rfl : (2500 : Int) = d := by injection hd
      decide)
    ⟨"Hello world", 1, 5 / 2⟩
    (by rw [transcript_example]; exact List.mem_singleton.mpr rfl)
  exact h

/-- C9 confirmed: for host youtu.be the parser always succeeds and
returns the path with every leading slash removed; in particular the
empty path of a bare youtu.be URL yields the empty identifier. -/
theorem claim_C9 :
    (∀ p q, extract_video_id ⟨"youtu.be", p, q⟩ = Except.ok (lstripSlash p)) ∧
    extract_video_id ⟨"youtu.be", "/", []⟩ = Except.ok "" :=
  ⟨fun _ _ => rfl, rfl⟩

/-- C10 counterexample: with the query v=&v=abc the parser returns abc,
the value of the second occurrence of v, because parse_qs drops the
blank-valued first occurrence; the first occurrence's value is the empty
string. -/
theorem claim_C10_counterexample :
    extract_video_id ⟨"www.youtube.com", "/watch", [("v", ""), ("v", "abc")]⟩ =
      Except.ok "abc" ∧
    [("v", ""), ("v", "abc")].head? = some ("v", "") ∧ ("abc" : String) ≠ "" :=
  ⟨rfl, rfl, by decide⟩

/-- C10 amended: on a watch URL the parser returns the value of the
first occurrence of v whose value is non-empty (blank-valued occurrences
are discarded by the query parsing), and fails with InvalidURL when
every occurrence of v is blank or v is absent. -/
theorem claim_C10 (host : String) (qs : List (String × String))
    (hh : host = "www.youtube.com" ∨ host = "youtube.com") :
    (∀ p t, (qs.filter (fun r => r.2 ≠ "")).filter (fun r => r.1 = "v") = p :: t →
      extract_video_id ⟨host, "/watch", qs⟩ = Except.ok p.2) ∧
    ((qs.filter (fun r => r.2 ≠ "")).filter (fun r => r.1 = "v") = [] →
      extract_video_id ⟨host, "/watch", qs⟩ = Except.error invalidURLMsg) := by
  constructor
  · intro p t hft
    rw [extract_watch host qs hh, hft]
    rfl
  · intro hft
    rw [extract_watch host qs hh, hft]
    rfl

/-- C10 witness: the first of two non-blank v values is returned. -/
theorem claim_C10_witness :
    extract_video_id ⟨"www.youtube.com", "/watch", [("v", "a"), ("v", "b")]⟩ =
      Except.ok "a" :=
  (claim_C10 "www.youtube.com" [("v", "a"), ("v", "b")] (Or.inl rfl)).1
    ("v", "a") [("v", "b")] rfl

end YTT
